import Mathlib

/-!
Verification of the openclaw config-schema HTTP handler
(`src/gateway/config-schema-http.ts`) and the skills tool
(`src/unnamed/part_000`, `createSkillsTool`).

The TypeScript source is shallowly embedded: JavaScript runtime values are
modelled by an inductive `JSVal`, JavaScript numbers (IEEE doubles with the
non-finite values NaN and the two infinities) by `JSNum` with finite values
carried as rationals, thrown exceptions by `Except String`, and the single
outbound gateway RPC of a tool invocation by the `GatewayCall` record that a
successful run of `execute` produces.
-/

namespace OpenClaw

/-- Model of a JavaScript number: a finite value (carried as a rational) or
one of the non-finite values NaN, +Infinity, -Infinity. -/
inductive JSNum where
  | finite (q : ℚ)
  | nan
  | posInf
  | negInf
deriving DecidableEq

/-- Model of JavaScript `Number.isFinite`. -/
def JSNum.isFinite : JSNum → Bool
  | .finite _ => true
  | _ => false

/-- JavaScript truthiness of a number: `0` and `NaN` are falsy. -/
def JSNum.truthy : JSNum → Bool
  | .finite q => decide (q ≠ 0)
  | .nan => false
  | .posInf => true
  | .negInf => true

/-- Model of a JavaScript runtime value, as found in the loosely typed
argument bag the tool receives (`args as Record<string, unknown>`). -/
inductive JSVal where
  | undefined
  | null
  | bool (b : Bool)
  | num (n : JSNum)
  | str (s : String)
  | obj (fields : List (String × JSVal))
  | arr (elems : List JSVal)

/-- Model of the JavaScript `typeof` operator. Note `typeof null`,
`typeof` of a plain object and `typeof` of an array are all "object". -/
def JSVal.typeName : JSVal → String
  | .undefined => "undefined"
  | .null => "object"
  | .bool _ => "boolean"
  | .num _ => "number"
  | .str _ => "string"
  | .obj _ => "object"
  | .arr _ => "object"

/-- Model of `Array.isArray`. -/
def JSVal.isArray : JSVal → Bool
  | .arr _ => true
  | _ => false

/-- JavaScript truthiness: `undefined`, `null`, `false`, `0`, `NaN` and the
empty string are falsy; every object and every array (even empty) is truthy. -/
def JSVal.truthy : JSVal → Bool
  | .undefined => false
  | .null => false
  | .bool b => b
  | .num n => n.truthy
  | .str s => decide (s ≠ "")
  | .obj _ => true
  | .arr _ => true

/-- Model of JavaScript `String.prototype.trim`: drop leading and trailing
whitespace. Stated over the character list so that it evaluates by kernel
reduction (the builtin `String.trim` is defined by well-founded recursion). -/
def trimString (s : String) : String :=
  String.mk (((s.data.dropWhile Char.isWhitespace).reverse.dropWhile Char.isWhitespace).reverse)

/-- The argument bag of a tool invocation (`params` in the source). -/
def Params : Type := List (String × JSVal)

/-- Property access `params[key]`: an absent key reads as `undefined`. -/
def Params.get (ps : Params) (key : String) : JSVal :=
  match ps.find? (fun kv => kv.1 == key) with
  | some kv => kv.2
  | none => .undefined

/-- Modelled from the spec: `readStringParam` is imported from `common.js`,
which is not under `src/`. Per the spec, a string parameter is read trimmed
(unless trimming is disabled), a value that is missing, not a string, or
empty/whitespace-only counts as absent, and an absent required parameter
"fails with a parameter error before any remote call is attempted". -/
def readStringParam (ps : Params) (key : String) (required : Bool) (trim : Bool) :
    Except String (Option String) :=
  match ps.get key with
  | .str s =>
    let v := if trim then trimString s else s
    if v = "" then
      if required then .error ("Missing required parameter: " ++ key) else .ok none
    else
      .ok (some v)
  | _ => if required then .error ("Missing required parameter: " ++ key) else .ok none

/-- Reading an optional string parameter never throws; this projects the
always-successful branch of `readStringParam` with `required` off. -/
def readOptionalString (ps : Params) (key : String) (trim : Bool) : Option String :=
  match readStringParam ps key false trim with
  | .ok v => v
  | .error _ => none

/-- Reading a required string parameter: the source uses the returned value
as a string, so the model surfaces the success value directly. -/
def readRequiredString (ps : Params) (key : String) : Except String String :=
  match readStringParam ps key true true with
  | .ok (some v) => .ok v
  | .ok none => .error ("Missing required parameter: " ++ key)
  | .error e => .error e

/-- `GatewayCallOptions` from `gateway.js`, as constructed on lines 47-51 of
the tool source: `timeoutMs` is the caller argument whenever its `typeof` is
"number" (no finiteness or positivity check at this site), else `60_000`. -/
structure GatewayCallOptions where
  gatewayUrl : Option String
  gatewayToken : Option String
  timeoutMs : JSNum

/-- The single outbound `callGatewayTool(tool, opts, payload)` RPC that a
successful tool invocation issues. -/
structure GatewayCall where
  tool : String
  opts : GatewayCallOptions
  payload : List (String × JSVal)

/-- The `gatewayOpts` record built at the top of `execute` (lines 47-51). -/
def gatewayOptsOf (ps : Params) : GatewayCallOptions :=
  { gatewayUrl := readOptionalString ps "gatewayUrl" false
    gatewayToken := readOptionalString ps "gatewayToken" false
    timeoutMs :=
      match ps.get "timeoutMs" with
      | .num n => n
      | _ => .finite 60000 }

/-- JavaScript truthiness of a `string | undefined` value, used for the
`if (agentId)` check in the status case. -/
def optStrTruthy : Option String → Bool
  | some s => decide (s ≠ "")
  | none => false

/-- The `timeoutMs` slice of the install payload (lines 65-68 and 73 of the
tool source): the caller value, when its `typeof` is "number" and it is
finite, is floored and clamped to a minimum of 1000; the spread
`...(timeoutMs ? \x7b timeoutMs \x7d : \x7b\x7d)` then adds the field when
that (necessarily nonzero) value was computed. -/
def installTimeoutPart (v : JSVal) : List (String × JSVal) :=
  match
    (match v with
     | JSVal.num (JSNum.finite q) => some (max 1000 (Rat.floor q))
     | _ => none) with
  | some t => if t ≠ 0 then [("timeoutMs", JSVal.num (JSNum.finite (t : ℚ)))] else []
  | none => []

/-- The `enabled` slice of the update payload (lines 80-82): included
exactly when `typeof params.enabled === "boolean"`. -/
def enabledPart (v : JSVal) : List (String × JSVal) :=
  match v with
  | JSVal.bool b => [("enabled", JSVal.bool b)]
  | _ => []

/-- The `apiKey` slice of the update payload (lines 83-85): included
exactly when `typeof params.apiKey === "string"`. -/
def apiKeyPart (v : JSVal) : List (String × JSVal) :=
  match v with
  | JSVal.str s => [("apiKey", JSVal.str s)]
  | _ => []

/-- The `env` slice of the update payload (lines 86-88): included exactly
when `params.env` is truthy, of `typeof` "object", and not an array; the
value is forwarded unchanged. -/
def envPart (v : JSVal) : List (String × JSVal) :=
  if v.truthy && v.typeName == "object" && !v.isArray then [("env", v)] else []

/-- Shallow embedding of `createSkillsTool().execute` (lines 44-96 of the
tool source). A thrown validation error is an `Except.error`; a successful
run returns the one gateway call it issues (the tool awaits exactly one
`callGatewayTool` per invocation and wraps its result in `jsonResult`). -/
def skillsExecute (ps : Params) : Except String GatewayCall :=
  match readRequiredString ps "action" with
  | .error e => .error e
  | .ok action =>
    let gatewayOpts := gatewayOptsOf ps
    if action = "status" then
      let agentId := readOptionalString ps "agentId" true
      let statusParams : List (String × JSVal) :=
        if optStrTruthy agentId then [("agentId", .str (agentId.getD ""))] else []
      .ok { tool := "skills.status", opts := gatewayOpts, payload := statusParams }
    else if action = "install" then
      match readRequiredString ps "name" with
      | .error e => .error e
      | .ok name =>
        match readRequiredString ps "installId" with
        | .error e => .error e
        | .ok installId =>
          .ok { tool := "skills.install", opts := gatewayOpts,
                payload := [("name", .str name), ("installId", .str installId)] ++
                  installTimeoutPart (ps.get "timeoutMs") }
    else if action = "update" then
      match readRequiredString ps "skillKey" with
      | .error e => .error e
      | .ok skillKey =>
        .ok { tool := "skills.update", opts := gatewayOpts,
              payload := [("skillKey", .str skillKey)] ++ enabledPart (ps.get "enabled") ++
                apiKeyPart (ps.get "apiKey") ++ envPart (ps.get "env") }
    else if action = "bins" then
      .ok { tool := "skills.bins", opts := gatewayOpts, payload := [] }
    else
      .error ("Unknown action: " ++ action)

/-- The gateway calls an invocation issues: one on success, none when a
validation error was thrown first (the source throws before any `await` of
`callGatewayTool` in every error path). -/
def gatewayCalls (r : Except String GatewayCall) : List GatewayCall :=
  match r with
  | .ok c => [c]
  | .error _ => []

/-- Field lookup in a shaped gateway payload, distinguishing an absent field
(`none`) from a field explicitly present with any value. -/
def lookupField (payload : List (String × JSVal)) (key : String) : Option JSVal :=
  match payload.find? (fun kv => kv.1 == key) with
  | some kv => some kv.2
  | none => none

/-- A parameter value that does not provide a usable string: it is absent,
not a string, or trims to the empty string. -/
def missingStrParam (v : JSVal) : Prop :=
  ∀ s, v = .str s → trimString s = ""

/-! Embedding of the config-schema HTTP handler
(`src/gateway/config-schema-http.ts`). Its collaborators — configuration
loader, workspace resolver, plugin loader, channel lister, URL parser — are
external to the file and modelled as an environment of fallible functions;
`buildConfigSchema` is imported from `../config/schema.js`, which is not
under `src/`, and is modelled from the spec (sections 4.1, 4.2). -/

/-- The fixed path the handler serves (line 8 of the source). -/
def SCHEMA_PATH : String := "/openclaw.schema.json"

/-- The content type set by `sendJson` and by the HEAD branch. -/
def jsonContentType : String := "application/json; charset=utf-8"

/-- The part of the parsed URL the handler inspects. -/
structure UrlParts where
  pathname : String

/-- An incoming HTTP request as the handler sees it: `req.method`, and
`req.url` which may be absent. -/
structure HttpRequest where
  method : String
  url : Option String

/-- What the handler did: passed the request on (returned `false`, wrote
nothing), responded (wrote a status, the JSON content type and an optional
JSON body, then returned `true`), or let an exception escape to the
caller. -/
inductive HandlerOutcome where
  | notHandled
  | responded (status : Nat) (contentType : String) (body : Option JSVal)
  | threw (msg : String)

/-- The boolean the handler returns; `none` when an exception escaped
instead of a return. -/
def HandlerOutcome.returnValue : HandlerOutcome → Option Bool
  | .notHandled => some false
  | .responded _ _ _ => some true
  | .threw _ => none

/-- A plugin descriptor of the registry returned by `loadOpenClawPlugins`,
with the fields the handler reads on lines 51-57. -/
structure SchemaPlugin where
  id : String
  name : String
  description : Option String
  configUiHints : Option JSVal
  configJsonSchema : Option JSVal

/-- The `meta` record of a channel plugin entry (lines 60-61). -/
structure ChannelMeta where
  label : String
  blurb : Option String

/-- The optional `configSchema` record of a channel plugin entry
(lines 62-63). -/
structure ChannelConfigSchema where
  schema : JSVal
  uiHints : Option JSVal

/-- A channel plugin entry as returned by `listChannelPlugins`. -/
structure ChannelPluginEntry where
  id : String
  meta : ChannelMeta
  configSchema : Option ChannelConfigSchema

/-- The plugin record the handler builds for `buildConfigSchema`
(lines 51-57). -/
structure PluginSchemaInput where
  id : String
  name : String
  description : Option String
  configUiHints : Option JSVal
  configSchema : Option JSVal

/-- The channel record the handler builds for `buildConfigSchema`
(lines 58-64). -/
structure ChannelSchemaInput where
  id : String
  label : String
  description : Option String
  configSchema : Option JSVal
  configUiHints : Option JSVal

/-- Modelled from the spec: the uniform contribution record of the
Descriptor Normalizer (spec section 3). -/
structure ExtensionContribution where
  id : String
  displayName : String
  description : Option String
  schemaFragment : Option JSVal
  uiHints : Option JSVal

/-- Modelled from the spec: the composition failure for a duplicate
contribution id; the message names the offending id. -/
structure CompositionError where
  duplicateId : String
  message : String

/-- One namespaced entry of the composed document: the contribution schema
fragment (an empty permissive fragment when the contribution has none) with
display name, description and UI hints as sibling metadata. -/
structure NamespacedEntry where
  schemaFragment : JSVal
  displayName : String
  description : Option String
  uiHints : Option JSVal

/-- Modelled from the spec: the composed schema document — the static base
schema plus one namespaced entry per contribution id. -/
structure ComposedSchema where
  base : JSVal
  extensions : List (String × NamespacedEntry)

/-- Modelled from the spec: the Descriptor Normalizer (spec section 4.1) —
plugins keep their name as displayName, channels rename label to
displayName and blurb to description, and a descriptor with an empty id is
dropped silently. -/
def normalizeContributions (plugins : List PluginSchemaInput)
    (channels : List ChannelSchemaInput) : List ExtensionContribution :=
  ((plugins.map fun p =>
      ({ id := p.id, displayName := p.name, description := p.description,
         schemaFragment := p.configSchema, uiHints := p.configUiHints } :
        ExtensionContribution)) ++
    (channels.map fun c =>
      ({ id := c.id, displayName := c.label, description := c.description,
         schemaFragment := c.configSchema, uiHints := c.configUiHints } :
        ExtensionContribution))).filter
    (fun c => c.id != "")

/-- Modelled from the spec: inserting one contribution into the namespaced
section; a contribution whose id is already present fails fast with a
CompositionError naming that id, instead of overwriting or dropping an
entry. -/
def insertContribution (acc : List (String × NamespacedEntry))
    (c : ExtensionContribution) :
    Except CompositionError (List (String × NamespacedEntry)) :=
  if (acc.find? (fun kv => kv.1 == c.id)).isSome then
    .error { duplicateId := c.id, message := "duplicate contribution id: " ++ c.id }
  else
    .ok (acc ++ [(c.id,
      { schemaFragment := c.schemaFragment.getD (JSVal.obj []),
        displayName := c.displayName, description := c.description,
        uiHints := c.uiHints })])

/-- Folding the contributions into the namespaced section, stopping at the
first duplicate id. -/
def composeExtensions (acc : List (String × NamespacedEntry)) :
    List ExtensionContribution → Except CompositionError (List (String × NamespacedEntry))
  | [] => .ok acc
  | c :: rest =>
    match insertContribution acc c with
    | .error e => .error e
    | .ok acc1 => composeExtensions acc1 rest

/-- Modelled from the spec: the Schema Composer contract
`compose(base, contributions) -> ComposedSchema` of spec section 4.2, with
its fail-fast collision policy. -/
def compose (base : JSVal) (contribs : List ExtensionContribution) :
    Except CompositionError ComposedSchema :=
  match composeExtensions [] contribs with
  | .error e => .error e
  | .ok exts => .ok { base := base, extensions := exts }

/-- Modelled from the spec: the static base schema, authoritative for core
configuration keys, owned by the configuration subsystem and passed in
unchanged; its exact content is external to this core. -/
def baseSchema : JSVal := JSVal.obj [("type", JSVal.str "object")]

/-- Modelled from the spec: `buildConfigSchema` (imported by the handler
from `../config/schema.js`, not under `src/`) — normalize the two
descriptor lists (spec 4.1) and compose them with the base schema
(spec 4.2). -/
def buildConfigSchema (plugins : List PluginSchemaInput)
    (channels : List ChannelSchemaInput) : Except CompositionError ComposedSchema :=
  compose baseSchema (normalizeContributions plugins channels)

/-- Modelled from the spec: the JSON rendering of one namespaced entry —
the schema fragment with displayName, description and uiHints attached as
sibling metadata fields, outside the validation fragment. -/
def NamespacedEntry.render (e : NamespacedEntry) : JSVal :=
  JSVal.obj ([("schema", e.schemaFragment), ("displayName", JSVal.str e.displayName)] ++
    (match e.description with
     | some d => [("description", JSVal.str d)]
     | none => []) ++
    (match e.uiHints with
     | some u => [("uiHints", u)]
     | none => []))

/-- Modelled from the spec: the serialized composed document — the base
schema fields with one property per contribution id under a dedicated
extensions namespace. -/
def ComposedSchema.render (s : ComposedSchema) : JSVal :=
  JSVal.obj
    ((match s.base with
      | JSVal.obj fields => fields
      | _ => []) ++
     [("extensions", JSVal.obj (s.extensions.map fun kv => (kv.1, kv.2.render)))])

/-- The external collaborators of the handler at their boundary contracts
(spec section 6): each may return a value or fail with an error message.
`parseUrl` models `new URL(input, "http://localhost")`, which throws on
request targets it cannot parse (for example "//[", whose authority
component is invalid). -/
structure SchemaHttpEnv (Config : Type) where
  parseUrl : String → Except String UrlParts
  loadConfig : Except String Config
  resolveDefaultAgentId : Config → Except String String
  resolveAgentWorkspaceDir : Config → String → Except String String
  loadOpenClawPlugins : Config → String → Except String (List SchemaPlugin)
  listChannelPlugins : Except String (List ChannelPluginEntry)

/-- The body of the try block (lines 37-66): load the configuration,
resolve the default agent and its workspace, discover plugins and channels,
map their descriptors (lines 51-64) and build the schema. A composition
failure surfaces through its message, as any thrown error does. -/
def schemaPipeline {Config : Type} (env : SchemaHttpEnv Config) :
    Except String ComposedSchema :=
  match env.loadConfig with
  | .error e => .error e
  | .ok cfg =>
    match env.resolveDefaultAgentId cfg with
    | .error e => .error e
    | .ok agentId =>
      match env.resolveAgentWorkspaceDir cfg agentId with
      | .error e => .error e
      | .ok workspaceDir =>
        match env.loadOpenClawPlugins cfg workspaceDir with
        | .error e => .error e
        | .ok plugins =>
          match env.listChannelPlugins with
          | .error e => .error e
          | .ok channels =>
            match buildConfigSchema
                (plugins.map fun p =>
                  { id := p.id, name := p.name, description := p.description,
                    configUiHints := p.configUiHints,
                    configSchema := p.configJsonSchema })
                (channels.map fun entry =>
                  { id := entry.id, label := entry.meta.label,
                    description := entry.meta.blurb,
                    configSchema := entry.configSchema.map ChannelConfigSchema.schema,
                    configUiHints := entry.configSchema.bind ChannelConfigSchema.uiHints }) with
            | .error e => .error e.message
            | .ok result => .ok result

/-- Shallow embedding of `handleConfigSchemaHttpRequest` (lines 20-71).
The URL parse on line 25 happens before the try block, so its failure is a
`HandlerOutcome.threw` — an exception escaping to the caller; every failure
inside the try block becomes the 500 response of the catch. -/
def handleConfigSchemaHttpRequest {Config : Type} (env : SchemaHttpEnv Config)
    (req : HttpRequest) : HandlerOutcome :=
  if req.method ≠ "GET" ∧ req.method ≠ "HEAD" then .notHandled
  else
    match env.parseUrl (req.url.getD "/") with
    | .error e => .threw e
    | .ok url =>
      if url.pathname ≠ SCHEMA_PATH then .notHandled
      else if req.method = "HEAD" then .responded 200 jsonContentType none
      else
        match schemaPipeline env with
        | .ok result => .responded 200 jsonContentType (some result.render)
        | .error msg =>
          .responded 500 jsonContentType (some (JSVal.obj [("error", JSVal.str msg)]))

/-- An environment whose URL parser fails on every input, standing in for
the request targets on which `new URL(input, "http://localhost")` throws. -/
def throwingUrlEnv : SchemaHttpEnv Unit :=
  { parseUrl := fun _ => .error "Invalid URL"
    loadConfig := .ok ()
    resolveDefaultAgentId := fun _ => .ok "main"
    resolveAgentWorkspaceDir := fun _ _ => .ok "/workspace"
    loadOpenClawPlugins := fun _ _ => .ok []
    listChannelPlugins := .ok [] }

/-- A parser for origin-form request targets that extracts the pathname:
everything before the first query or fragment delimiter. -/
def pathnameParse (s : String) : Except String UrlParts :=
  .ok { pathname := String.mk (s.data.takeWhile fun ch => ch != '?' && ch != '#') }

/-- An environment in which every collaborator inside the try block
fails. -/
def failingCollaboratorsEnv : SchemaHttpEnv Unit :=
  { parseUrl := pathnameParse
    loadConfig := .error "config load failed"
    resolveDefaultAgentId := fun _ => .error "no default agent"
    resolveAgentWorkspaceDir := fun _ _ => .error "no workspace"
    loadOpenClawPlugins := fun _ _ => .error "plugin discovery failed"
    listChannelPlugins := .error "channel listing failed" }

/-- An environment whose plugin registry reports two plugins with the same
id. -/
def duplicatePluginEnv : SchemaHttpEnv Unit :=
  { parseUrl := pathnameParse
    loadConfig := .ok ()
    resolveDefaultAgentId := fun _ => .ok "main"
    resolveAgentWorkspaceDir := fun _ _ => .ok "/workspace"
    loadOpenClawPlugins := fun _ _ => .ok
      ([{ id := "p1", name := "P one", description := none,
          configUiHints := none, configJsonSchema := none },
        { id := "p1", name := "P one again", description := none,
          configUiHints := none, configJsonSchema := none }] : List SchemaPlugin)
    listChannelPlugins := .ok [] }

/-- A minimal concrete contribution for concrete composition runs. -/
def contribP1 : ExtensionContribution :=
  { id := "p1", displayName := "P one", description := none,
    schemaFragment := none, uiHints := none }

theorem lookupField_nil (key : String) : lookupField [] key = none := rfl

theorem lookupField_cons (kv : String × JSVal) (rest : List (String × JSVal)) (key : String) :
    lookupField (kv :: rest) key =
      if kv.1 == key then some kv.2 else lookupField rest key := by
  simp only [lookupField, List.find?]
  by_cases h : kv.1 == key
  · simp [h]
  · simp [h]

theorem lookupField_append (xs ys : List (String × JSVal)) (key : String) :
    lookupField (xs ++ ys) key =
      match lookupField xs key with
      | some v => some v
      | none => lookupField ys key := by
  induction xs with
  | nil => simp [lookupField_nil]
  | cons kv xs ih =>
    rw [List.cons_append, lookupField_cons, lookupField_cons]
    by_cases h : kv.1 == key
    · simp [h]
    · simp [h, ih]

theorem readRequiredString_of_str (ps : Params) (key s : String)
    (h : ps.get key = .str s) (h2 : trimString s ≠ "") :
    readRequiredString ps key = .ok (trimString s) := by
  unfold readRequiredString readStringParam
  rw [h]
  simp [h2]

theorem readRequiredString_of_missing (ps : Params) (key : String)
    (h : missingStrParam (ps.get key)) :
    readRequiredString ps key = .error ("Missing required parameter: " ++ key) := by
  unfold readRequiredString readStringParam
  cases hv : ps.get key with
  | str s =>
    have hs := h s hv
    simp [hs]
  | undefined => simp
  | null => simp
  | bool b => simp
  | num n => simp
  | obj fields => simp
  | arr elems => simp

/-- Shape of a successful install invocation, read off the source: the
payload is name and installId, plus the clamped timeout when the caller
supplied a finite number. -/
theorem skillsExecute_install_eq (ps : Params) (name installId : String)
    (ha : readRequiredString ps "action" = .ok "install")
    (hn : readRequiredString ps "name" = .ok name)
    (hi : readRequiredString ps "installId" = .ok installId) :
    skillsExecute ps = .ok
      { tool := "skills.install", opts := gatewayOptsOf ps,
        payload := [("name", JSVal.str name), ("installId", JSVal.str installId)] ++
          installTimeoutPart (ps.get "timeoutMs") } := by
  unfold skillsExecute
  rw [ha, hn, hi]
  rfl

/-- Shape of a successful update invocation, read off the source: the
payload starts with skillKey and adds each optional field exactly when it
passes the type check on lines 80-88. -/
theorem skillsExecute_update_eq (ps : Params) (skillKey : String)
    (ha : readRequiredString ps "action" = .ok "update")
    (hk : readRequiredString ps "skillKey" = .ok skillKey) :
    skillsExecute ps = .ok
      { tool := "skills.update", opts := gatewayOptsOf ps,
        payload := [("skillKey", JSVal.str skillKey)] ++ enabledPart (ps.get "enabled") ++
          apiKeyPart (ps.get "apiKey") ++ envPart (ps.get "env") } := by
  unfold skillsExecute
  rw [ha, hk]
  rfl

/-- Shape of a successful status invocation: the payload carries agentId
only when a non-empty string was supplied. -/
theorem skillsExecute_status_eq (ps : Params)
    (ha : readRequiredString ps "action" = .ok "status") :
    skillsExecute ps = .ok
      { tool := "skills.status", opts := gatewayOptsOf ps,
        payload :=
          if optStrTruthy (readOptionalString ps "agentId" true) then
            [("agentId", JSVal.str ((readOptionalString ps "agentId" true).getD ""))]
          else [] } := by
  unfold skillsExecute
  rw [ha]
  rfl

/-- Shape of a successful bins invocation: the payload is empty. -/
theorem skillsExecute_bins_eq (ps : Params)
    (ha : readRequiredString ps "action" = .ok "bins") :
    skillsExecute ps = .ok { tool := "skills.bins", opts := gatewayOptsOf ps, payload := [] } := by
  unfold skillsExecute
  rw [ha]
  rfl

/-- The default case of the action switch: any action outside the four
literals throws the unknown-action error. -/
theorem skillsExecute_unknown_eq (ps : Params) (action : String)
    (ha : readRequiredString ps "action" = .ok action)
    (h1 : action ≠ "status") (h2 : action ≠ "install")
    (h3 : action ≠ "update") (h4 : action ≠ "bins") :
    skillsExecute ps = .error ("Unknown action: " ++ action) := by
  unfold skillsExecute
  simp [ha, h1, h2, h3, h4]

/-- A thrown error while reading the action propagates. -/
theorem skillsExecute_err_action (ps : Params) (e : String)
    (ha : readRequiredString ps "action" = .error e) :
    skillsExecute ps = .error e := by
  unfold skillsExecute
  rw [ha]

/-- A thrown error while reading the install name propagates. -/
theorem skillsExecute_err_name (ps : Params) (e : String)
    (ha : readRequiredString ps "action" = .ok "install")
    (hn : readRequiredString ps "name" = .error e) :
    skillsExecute ps = .error e := by
  unfold skillsExecute
  rw [ha, hn]
  rfl

/-- A thrown error while reading installId propagates. -/
theorem skillsExecute_err_installId (ps : Params) (name e : String)
    (ha : readRequiredString ps "action" = .ok "install")
    (hn : readRequiredString ps "name" = .ok name)
    (hi : readRequiredString ps "installId" = .error e) :
    skillsExecute ps = .error e := by
  unfold skillsExecute
  rw [ha, hn, hi]
  rfl

/-- A thrown error while reading skillKey propagates. -/
theorem skillsExecute_err_skillKey (ps : Params) (e : String)
    (ha : readRequiredString ps "action" = .ok "update")
    (hk : readRequiredString ps "skillKey" = .error e) :
    skillsExecute ps = .error e := by
  unfold skillsExecute
  rw [ha, hk]
  rfl

/-- Every successful invocation carries the `gatewayOpts` record built on
lines 47-51 into its single gateway call. -/
theorem skillsExecute_ok_opts (ps : Params) (c : GatewayCall)
    (h : skillsExecute ps = .ok c) : c.opts = gatewayOptsOf ps := by
  cases ha : readRequiredString ps "action" with
  | error e => rw [skillsExecute_err_action ps e ha] at h; exact Except.noConfusion h
  | ok action =>
    by_cases h1 : action = "status"
    · subst h1; rw [skillsExecute_status_eq ps ha] at h; cases h; rfl
    by_cases h2 : action = "install"
    · subst h2
      cases hn : readRequiredString ps "name" with
      | error e => rw [skillsExecute_err_name ps e ha hn] at h; exact Except.noConfusion h
      | ok name =>
        cases hi : readRequiredString ps "installId" with
        | error e => rw [skillsExecute_err_installId ps name e ha hn hi] at h; exact Except.noConfusion h
        | ok installId =>
          rw [skillsExecute_install_eq ps name installId ha hn hi] at h; cases h; rfl
    by_cases h3 : action = "update"
    · subst h3
      cases hk : readRequiredString ps "skillKey" with
      | error e => rw [skillsExecute_err_skillKey ps e ha hk] at h; exact Except.noConfusion h
      | ok skillKey =>
        rw [skillsExecute_update_eq ps skillKey ha hk] at h; cases h; rfl
    by_cases h4 : action = "bins"
    · subst h4; rw [skillsExecute_bins_eq ps ha] at h; cases h; rfl
    rw [skillsExecute_unknown_eq ps action ha h1 h2 h3 h4] at h
    exact Except.noConfusion h

theorem installTimeoutPart_finite (q : ℚ) :
    installTimeoutPart (.num (.finite q)) =
      [("timeoutMs", JSVal.num (JSNum.finite ((max 1000 (Rat.floor q) : ℤ) : ℚ)))] := by
  have hne : (max 1000 (Rat.floor q) : ℤ) ≠ 0 :=
    ne_of_gt (lt_of_lt_of_le (by norm_num) (le_max_left 1000 (Rat.floor q)))
  simp [installTimeoutPart, hne]

theorem installTimeoutPart_other (v : JSVal) (h : ∀ q : ℚ, v ≠ .num (.finite q)) :
    installTimeoutPart v = [] := by
  cases v with
  | num n =>
    cases n with
    | finite q => exact absurd rfl (h q)
    | nan => rfl
    | posInf => rfl
    | negInf => rfl
  | undefined => rfl
  | null => rfl
  | bool b => rfl
  | str s => rfl
  | obj fields => rfl
  | arr elems => rfl

theorem lookupField_enabledPart_ne (v : JSVal) (key : String) (h : key ≠ "enabled") :
    lookupField (enabledPart v) key = none := by
  have h2 : ("enabled" == key) = false := by
    simp [beq_eq_false_iff_ne]
    exact fun he => h he.symm
  cases v <;> simp [enabledPart, lookupField_cons, lookupField_nil, h2]

theorem lookupField_apiKeyPart_ne (v : JSVal) (key : String) (h : key ≠ "apiKey") :
    lookupField (apiKeyPart v) key = none := by
  have h2 : ("apiKey" == key) = false := by
    simp [beq_eq_false_iff_ne]
    exact fun he => h he.symm
  cases v <;> simp [apiKeyPart, lookupField_cons, lookupField_nil, h2]

theorem lookupField_envPart_ne (v : JSVal) (key : String) (h : key ≠ "env") :
    lookupField (envPart v) key = none := by
  have h2 : ("env" == key) = false := by
    simp [beq_eq_false_iff_ne]
    exact fun he => h he.symm
  unfold envPart
  split <;> simp [lookupField_cons, lookupField_nil, h2]

theorem lookupField_enabledPart (v : JSVal) :
    lookupField (enabledPart v) "enabled" =
      match v with
      | JSVal.bool b => some (JSVal.bool b)
      | _ => none := by
  cases v <;> simp [enabledPart, lookupField_cons, lookupField_nil]

theorem lookupField_apiKeyPart (v : JSVal) :
    lookupField (apiKeyPart v) "apiKey" =
      match v with
      | JSVal.str s => some (JSVal.str s)
      | _ => none := by
  cases v <;> simp [apiKeyPart, lookupField_cons, lookupField_nil]

/-- The env slice keeps exactly the plain objects: `null` is excluded by the
truthiness test, arrays by `Array.isArray`, and every other value by the
`typeof` test; a kept object is forwarded unchanged. -/
theorem lookupField_envPart (v : JSVal) :
    lookupField (envPart v) "env" =
      match v with
      | JSVal.obj fields => some (JSVal.obj fields)
      | _ => none := by
  cases v <;> simp [envPart, lookupField_cons, lookupField_nil, JSVal.truthy,
    JSVal.typeName, JSVal.isArray]

/-- C2: for action "install", a caller-supplied timeoutMs that is a finite
number is floored to an integer and clamped to a minimum of 1000 before
being placed in the gateway payload; when timeoutMs is absent or not a
finite number, the timeoutMs field is omitted from the payload entirely. -/
theorem install_timeoutMs_clamped_or_omitted (ps : Params) (name installId : String)
    (ha : ps.get "action" = .str "install")
    (hn : ps.get "name" = .str name) (hn2 : trimString name ≠ "")
    (hi : ps.get "installId" = .str installId) (hi2 : trimString installId ≠ "") :
    ∃ c, skillsExecute ps = .ok c ∧ c.tool = "skills.install" ∧
      (∀ q : ℚ, ps.get "timeoutMs" = .num (.finite q) →
        lookupField c.payload "timeoutMs"
          = some (.num (.finite ((max 1000 (Rat.floor q) : ℤ) : ℚ)))) ∧
      ((∀ q : ℚ, ps.get "timeoutMs" ≠ .num (.finite q)) →
        lookupField c.payload "timeoutMs" = none) := by
  have ha2 : readRequiredString ps "action" = .ok "install" :=
    readRequiredString_of_str ps "action" "install" ha (by decide)
  have hn3 : readRequiredString ps "name" = .ok (trimString name) :=
    readRequiredString_of_str ps "name" name hn hn2
  have hi3 : readRequiredString ps "installId" = .ok (trimString installId) :=
    readRequiredString_of_str ps "installId" installId hi hi2
  refine ⟨_, skillsExecute_install_eq ps (trimString name) (trimString installId) ha2 hn3 hi3,
    rfl, ?_, ?_⟩
  · intro q hq
    rw [lookupField_append, hq, installTimeoutPart_finite]
    simp [lookupField_cons, lookupField_nil]
  · intro h
    rw [lookupField_append, installTimeoutPart_other (ps.get "timeoutMs") h]
    simp [lookupField_cons, lookupField_nil]

/-- C2 witness: timeoutMs 5 is sent clamped to 1000; 2500.7 (the rational
25007/10) is sent floored to 2500; a string timeoutMs is omitted. -/
theorem install_timeoutMs_clamped_or_omitted_witness :
    (∃ c, skillsExecute [("action", .str "install"), ("name", .str "ffmpeg"),
        ("installId", .str "brew-ffmpeg"), ("timeoutMs", .num (.finite 5))] = .ok c ∧
      lookupField c.payload "timeoutMs" = some (.num (.finite 1000))) ∧
    (∃ c, skillsExecute [("action", .str "install"), ("name", .str "ffmpeg"),
        ("installId", .str "brew-ffmpeg"),
        ("timeoutMs", .num (.finite ⟨25007, 10, by decide, by decide⟩))] = .ok c ∧
      lookupField c.payload "timeoutMs" = some (.num (.finite 2500))) ∧
    (∃ c, skillsExecute [("action", .str "install"), ("name", .str "ffmpeg"),
        ("installId", .str "brew-ffmpeg"), ("timeoutMs", .str "x")] = .ok c ∧
      lookupField c.payload "timeoutMs" = none) := by
  refine ⟨?_, ?_, ?_⟩
  · obtain ⟨c, hc, -, hfin, -⟩ :=
      install_timeoutMs_clamped_or_omitted
        [("action", .str "install"), ("name", .str "ffmpeg"),
         ("installId", .str "brew-ffmpeg"), ("timeoutMs", .num (.finite 5))]
        "ffmpeg" "brew-ffmpeg" rfl rfl (by decide) rfl (by decide)
    refine ⟨c, hc, ?_⟩
    have h5 := hfin 5 rfl
    rwa [show ((max 1000 (Rat.floor (5 : ℚ)) : ℤ) : ℚ) = 1000 from by decide] at h5
  · obtain ⟨c, hc, -, hfin, -⟩ :=
      install_timeoutMs_clamped_or_omitted
        [("action", .str "install"), ("name", .str "ffmpeg"),
         ("installId", .str "brew-ffmpeg"),
         ("timeoutMs", .num (.finite ⟨25007, 10, by decide, by decide⟩))]
        "ffmpeg" "brew-ffmpeg" rfl rfl (by decide) rfl (by decide)
    refine ⟨c, hc, ?_⟩
    have h7 := hfin ⟨25007, 10, by decide, by decide⟩ rfl
    rwa [show ((max 1000 (Rat.floor (⟨25007, 10, by decide, by decide⟩ : ℚ)) : ℤ) : ℚ) = 2500
      from by decide] at h7
  · obtain ⟨c, hc, -, -, hnone⟩ :=
      install_timeoutMs_clamped_or_omitted
        [("action", .str "install"), ("name", .str "ffmpeg"),
         ("installId", .str "brew-ffmpeg"), ("timeoutMs", .str "x")]
        "ffmpeg" "brew-ffmpeg" rfl rfl (by decide) rfl (by decide)
    exact ⟨c, hc, hnone (fun q h => JSVal.noConfusion h)⟩

/-- C3: for action "update", each optional field is included in the gateway
payload exactly when it passes its type check: enabled iff boolean (so
`enabled: false` is still included), apiKey iff string, env iff a non-array
object (`null` and arrays are excluded); an included env object is
forwarded unchanged, so absence in the payload is distinguishable from an
explicit clearing value such as an empty-string map entry. -/
theorem update_optional_fields_typed (ps : Params) (skillKey : String)
    (ha : ps.get "action" = .str "update")
    (hk : ps.get "skillKey" = .str skillKey) (hk2 : trimString skillKey ≠ "") :
    ∃ c, skillsExecute ps = .ok c ∧ c.tool = "skills.update" ∧
      lookupField c.payload "enabled"
        = (match ps.get "enabled" with
           | JSVal.bool b => some (JSVal.bool b)
           | _ => none) ∧
      lookupField c.payload "apiKey"
        = (match ps.get "apiKey" with
           | JSVal.str s => some (JSVal.str s)
           | _ => none) ∧
      lookupField c.payload "env"
        = (match ps.get "env" with
           | JSVal.obj fields => some (JSVal.obj fields)
           | _ => none) := by
  have ha2 : readRequiredString ps "action" = .ok "update" :=
    readRequiredString_of_str ps "action" "update" ha (by decide)
  have hk3 : readRequiredString ps "skillKey" = .ok (trimString skillKey) :=
    readRequiredString_of_str ps "skillKey" skillKey hk hk2
  refine ⟨_, skillsExecute_update_eq ps (trimString skillKey) ha2 hk3, rfl, ?_, ?_, ?_⟩
  · rw [lookupField_append, lookupField_append, lookupField_append,
      lookupField_envPart_ne _ _ (by decide), lookupField_apiKeyPart_ne _ _ (by decide),
      lookupField_enabledPart]
    cases ps.get "enabled" <;> simp [lookupField_cons, lookupField_nil]
  · rw [lookupField_append, lookupField_append, lookupField_append,
      lookupField_envPart_ne _ _ (by decide), lookupField_apiKeyPart,
      lookupField_enabledPart_ne _ _ (by decide)]
    cases ps.get "apiKey" <;> simp [lookupField_cons, lookupField_nil]
  · rw [lookupField_append, lookupField_append, lookupField_append,
      lookupField_envPart, lookupField_apiKeyPart_ne _ _ (by decide),
      lookupField_enabledPart_ne _ _ (by decide)]
    cases ps.get "env" <;> simp [lookupField_cons, lookupField_nil]

/-- C3 witness: `enabled: false` is still included, and
`env: \x7b "X": "" \x7d` reaches the call with the empty-string value. -/
theorem update_optional_fields_typed_witness :
    ∃ c, skillsExecute [("action", .str "update"), ("skillKey", .str "my-skill"),
        ("enabled", .bool false), ("env", .obj [("X", .str "")])] = .ok c ∧
      lookupField c.payload "enabled" = some (.bool false) ∧
      lookupField c.payload "apiKey" = none ∧
      lookupField c.payload "env" = some (.obj [("X", .str "")]) := by
  obtain ⟨c, hc, -, hen, hap, hev⟩ :=
    update_optional_fields_typed
      [("action", .str "update"), ("skillKey", .str "my-skill"),
       ("enabled", .bool false), ("env", .obj [("X", .str "")])]
      "my-skill" rfl rfl (by decide)
  exact ⟨c, hc, hen, hap, hev⟩

/-- C1 counterexample: with `action: "update"`, a valid skillKey and
`env: []`, the invocation does not fail — the `skills.update` gateway call
is issued (the array env is merely dropped from the payload by the type
check on lines 86-88, which does not throw). -/
theorem update_array_env_still_calls_cex :
    (gatewayCalls (skillsExecute
        [("action", .str "update"), ("skillKey", .str "my-skill"), ("env", .arr [])])).map
      GatewayCall.tool = ["skills.update"] := rfl

/-- C1 amended: for action "update" with a valid skillKey, an env argument
that is an array fails only the env type check: the field is omitted from
the payload and the skills.update gateway call is still issued. -/
theorem update_array_env_dropped (ps : Params) (skillKey : String) (elems : List JSVal)
    (ha : ps.get "action" = .str "update")
    (hk : ps.get "skillKey" = .str skillKey) (hk2 : trimString skillKey ≠ "")
    (he : ps.get "env" = .arr elems) :
    ∃ c, skillsExecute ps = .ok c ∧ c.tool = "skills.update" ∧
      lookupField c.payload "env" = none ∧
      (gatewayCalls (skillsExecute ps)).map GatewayCall.tool = ["skills.update"] := by
  have ha2 : readRequiredString ps "action" = .ok "update" :=
    readRequiredString_of_str ps "action" "update" ha (by decide)
  have hk3 : readRequiredString ps "skillKey" = .ok (trimString skillKey) :=
    readRequiredString_of_str ps "skillKey" skillKey hk hk2
  have hshape := skillsExecute_update_eq ps (trimString skillKey) ha2 hk3
  refine ⟨_, hshape, rfl, ?_, ?_⟩
  · rw [lookupField_append, lookupField_append, lookupField_append,
      lookupField_envPart, lookupField_apiKeyPart_ne _ _ (by decide),
      lookupField_enabledPart_ne _ _ (by decide), he]
    simp [lookupField_cons, lookupField_nil]
  · rw [hshape]
    rfl

/-- C1 amended witness: the concrete invocation with `env: []`. -/
theorem update_array_env_dropped_witness :
    ∃ c, skillsExecute
        [("action", .str "update"), ("skillKey", .str "my-skill"), ("env", .arr [])] = .ok c ∧
      lookupField c.payload "env" = none := by
  obtain ⟨c, hc, -, henv, -⟩ :=
    update_array_env_dropped
      [("action", .str "update"), ("skillKey", .str "my-skill"), ("env", .arr [])]
      "my-skill" [] rfl rfl (by decide) rfl
  exact ⟨c, hc, henv⟩

/-- C6 counterexample: with `timeoutMs: NaN` (a number whose `typeof` is
"number" but which is not finite), the constructed GatewayCallOptions carry
`timeoutMs = NaN` into the issued gateway call — a non-finite value is not
rejected at this site, contradicting the claim. -/
theorem gatewayOpts_nonfinite_timeout_cex :
    (gatewayCalls (skillsExecute [("action", .str "bins"), ("timeoutMs", .num .nan)])).map
        (fun c => c.opts.timeoutMs) = [JSNum.nan] ∧
      JSNum.nan.isFinite = false := ⟨rfl, rfl⟩

/-- C6 amended: for every tool invocation that issues a gateway call, the
GatewayCallOptions timeoutMs equals the caller-supplied timeoutMs whenever
that argument is a number — finite or not, positive or not; no finiteness
or positivity check is applied at this site — and is the finite default
60000 otherwise. -/
theorem gatewayOpts_timeout_passthrough (ps : Params) (c : GatewayCall)
    (h : skillsExecute ps = .ok c) :
    c.opts.timeoutMs
        = (match ps.get "timeoutMs" with
           | JSVal.num n => n
           | _ => JSNum.finite 60000) ∧
      ((∀ n : JSNum, ps.get "timeoutMs" ≠ .num n) →
        c.opts.timeoutMs = .finite 60000 ∧ (JSNum.finite 60000).isFinite = true) := by
  have hopts : c.opts = gatewayOptsOf ps := skillsExecute_ok_opts ps c h
  constructor
  · rw [hopts]
    rfl
  · intro hn
    refine ⟨?_, rfl⟩
    rw [hopts]
    show (match ps.get "timeoutMs" with
          | JSVal.num n => n
          | _ => JSNum.finite 60000) = JSNum.finite 60000
    cases hv : ps.get "timeoutMs" with
    | num n => exact absurd hv (hn n)
    | undefined => rfl
    | null => rfl
    | bool b => rfl
    | str s => rfl
    | obj fields => rfl
    | arr elems => rfl

/-- C6 amended witness: a bins invocation with no timeoutMs argument gets
the finite default 60000. -/
theorem gatewayOpts_timeout_passthrough_witness :
    ∃ c, skillsExecute [("action", .str "bins")] = .ok c ∧
      c.opts.timeoutMs = .finite 60000 := by
  refine ⟨{ tool := "skills.bins",
            opts := { gatewayUrl := none, gatewayToken := none, timeoutMs := .finite 60000 },
            payload := [] }, rfl, ?_⟩
  exact (gatewayOpts_timeout_passthrough [("action", .str "bins")] _ rfl).1

/-- C7: an action value outside the four literals fails with an unknown
action error, and a required field that is missing or empty/whitespace-only
(name or installId for install, skillKey for update) fails with a parameter
error; in every such case the invocation issues zero gateway calls. -/
theorem validation_fails_before_remote_call (ps : Params) :
    (∀ a, ps.get "action" = .str a → trimString a ≠ "" →
      trimString a ∉ (["status", "install", "update", "bins"] : List String) →
      skillsExecute ps = .error ("Unknown action: " ++ trimString a) ∧
        gatewayCalls (skillsExecute ps) = []) ∧
    (ps.get "action" = .str "install" → missingStrParam (ps.get "name") →
      skillsExecute ps = .error "Missing required parameter: name" ∧
        gatewayCalls (skillsExecute ps) = []) ∧
    (∀ name, ps.get "action" = .str "install" →
      ps.get "name" = .str name → trimString name ≠ "" →
      missingStrParam (ps.get "installId") →
      skillsExecute ps = .error "Missing required parameter: installId" ∧
        gatewayCalls (skillsExecute ps) = []) ∧
    (ps.get "action" = .str "update" → missingStrParam (ps.get "skillKey") →
      skillsExecute ps = .error "Missing required parameter: skillKey" ∧
        gatewayCalls (skillsExecute ps) = []) := by
  refine ⟨?_, ?_, ?_, ?_⟩
  · intro a haction hne hmem
    have ha2 : readRequiredString ps "action" = .ok (trimString a) :=
      readRequiredString_of_str ps "action" a haction hne
    simp only [List.mem_cons, List.mem_singleton, not_or] at hmem
    obtain ⟨m1, m2, m3, m4, -⟩ := hmem
    have heq := skillsExecute_unknown_eq ps (trimString a) ha2 m1 m2 m3 m4
    exact ⟨heq, by rw [heq]; rfl⟩
  · intro haction hname
    have ha2 : readRequiredString ps "action" = .ok "install" :=
      readRequiredString_of_str ps "action" "install" haction (by decide)
    have hn2 : readRequiredString ps "name" = .error "Missing required parameter: name" :=
      readRequiredString_of_missing ps "name" hname
    have heq := skillsExecute_err_name ps _ ha2 hn2
    exact ⟨heq, by rw [heq]; rfl⟩
  · intro name haction hname hnne hinstall
    have ha2 : readRequiredString ps "action" = .ok "install" :=
      readRequiredString_of_str ps "action" "install" haction (by decide)
    have hn2 : readRequiredString ps "name" = .ok (trimString name) :=
      readRequiredString_of_str ps "name" name hname hnne
    have hi2 : readRequiredString ps "installId"
        = .error "Missing required parameter: installId" :=
      readRequiredString_of_missing ps "installId" hinstall
    have heq := skillsExecute_err_installId ps (trimString name) _ ha2 hn2 hi2
    exact ⟨heq, by rw [heq]; rfl⟩
  · intro haction hkey
    have ha2 : readRequiredString ps "action" = .ok "update" :=
      readRequiredString_of_str ps "action" "update" haction (by decide)
    have hk2 : readRequiredString ps "skillKey"
        = .error "Missing required parameter: skillKey" :=
      readRequiredString_of_missing ps "skillKey" hkey
    have heq := skillsExecute_err_skillKey ps _ ha2 hk2
    exact ⟨heq, by rw [heq]; rfl⟩

/-- C7 witness: an unrecognized action fails with the unknown-action error
and zero gateway calls; a whitespace-only install name fails with the
parameter error and zero gateway calls. -/
theorem validation_fails_before_remote_call_witness :
    (skillsExecute [("action", .str "frobnicate")]
        = .error "Unknown action: frobnicate" ∧
      gatewayCalls (skillsExecute [("action", .str "frobnicate")]) = []) ∧
    (skillsExecute [("action", .str "install"), ("name", .str "   ")]
        = .error "Missing required parameter: name" ∧
      gatewayCalls (skillsExecute [("action", .str "install"), ("name", .str "   ")]) = []) := by
  constructor
  · exact (validation_fails_before_remote_call [("action", .str "frobnicate")]).1
      "frobnicate" rfl (by decide) (by decide)
  · exact (validation_fails_before_remote_call
      [("action", .str "install"), ("name", .str "   ")]).2.1 rfl
      (fun s hs => by cases hs; rfl)

/-- A successful fold of the contributions means their ids are distinct and
disjoint from the keys accumulated so far. -/
theorem composeExtensions_ok_nodup (l : List ExtensionContribution) :
    ∀ (acc r : List (String × NamespacedEntry)), composeExtensions acc l = .ok r →
      (l.map ExtensionContribution.id).Nodup ∧
        ∀ i ∈ l.map ExtensionContribution.id, ∀ kv ∈ acc, kv.1 ≠ i := by
  induction l with
  | nil => intro acc r _; simp
  | cons c l ih =>
    intro acc r h
    rw [composeExtensions] at h
    cases hins : insertContribution acc c with
    | error e => rw [hins] at h; exact Except.noConfusion h
    | ok acc1 =>
      rw [hins] at h
      obtain ⟨hnd, hdisj⟩ := ih acc1 r h
      unfold insertContribution at hins
      by_cases hdup : (acc.find? (fun kv => kv.1 == c.id)).isSome
      · rw [if_pos hdup] at hins; exact Except.noConfusion hins
      · rw [if_neg hdup] at hins
        cases hins
        have hnotacc : ∀ kv ∈ acc, kv.1 ≠ c.id := by
          intro kv hkv heq
          apply hdup
          rw [List.find?_isSome]
          exact ⟨kv, hkv, by simp [heq]⟩
        constructor
        · rw [List.map_cons, List.nodup_cons]
          refine ⟨?_, hnd⟩
          intro hmem
          exact hdisj c.id hmem _ (List.mem_append_right acc (List.mem_singleton.mpr rfl)) rfl
        · intro i hi kv hkv
          rw [List.map_cons, List.mem_cons] at hi
          cases hi with
          | inl hi => exact hi ▸ hnotacc kv hkv
          | inr hi => exact hdisj i hi kv (List.mem_append_left _ hkv)

/-- A failing fold reports a duplicate: the error message names the
duplicated id, and that id occurs at least twice among the accumulated keys
and the remaining contribution ids. -/
theorem composeExtensions_error_dup (l : List ExtensionContribution) :
    ∀ (acc : List (String × NamespacedEntry)) (e : CompositionError),
      composeExtensions acc l = .error e →
        e.message = "duplicate contribution id: " ++ e.duplicateId ∧
          2 ≤ (acc.map Prod.fst ++ l.map ExtensionContribution.id).count e.duplicateId := by
  induction l with
  | nil => intro acc e h; rw [composeExtensions] at h; exact Except.noConfusion h
  | cons c l ih =>
    intro acc e h
    rw [composeExtensions] at h
    cases hins : insertContribution acc c with
    | error e2 =>
      rw [hins] at h
      cases h
      unfold insertContribution at hins
      by_cases hdup : (acc.find? (fun kv => kv.1 == c.id)).isSome
      · rw [if_pos hdup] at hins
        injection hins with h3
        have hdid : e.duplicateId = c.id := by rw [← h3]
        refine ⟨by rw [← h3], ?_⟩
        have hmem : c.id ∈ acc.map Prod.fst := by
          rw [List.find?_isSome] at hdup
          obtain ⟨kv, hkv, hbeq⟩ := hdup
          have hk : kv.1 = c.id := by simpa using hbeq
          exact hk ▸ List.mem_map_of_mem Prod.fst hkv
        have h1 : 0 < (acc.map Prod.fst).count c.id := List.count_pos_iff.mpr hmem
        rw [hdid, List.map_cons, List.count_append, List.count_cons_self]
        omega
      · rw [if_neg hdup] at hins; exact Except.noConfusion hins
    | ok acc1 =>
      rw [hins] at h
      obtain ⟨hm, hc⟩ := ih acc1 e h
      refine ⟨hm, ?_⟩
      unfold insertContribution at hins
      by_cases hdup : (acc.find? (fun kv => kv.1 == c.id)).isSome
      · rw [if_pos hdup] at hins; exact Except.noConfusion hins
      · rw [if_neg hdup] at hins
        cases hins
        simp only [List.map_append, List.map_cons, List.map_nil, List.append_assoc,
          List.singleton_append, List.cons_append, List.nil_append] at hc
        rw [List.map_cons]
        exact hc

/-- C4: two contributions sharing an id make composition fail fast with a
CompositionError whose message names the colliding id — an id duplicated in
the input — and no composed schema is produced; concretely, the failure
surfaces to the HTTP client as the 500 error body naming the id. -/
theorem compose_duplicate_id_fails (base : JSVal) (contribs : List ExtensionContribution)
    (h : ¬ (contribs.map ExtensionContribution.id).Nodup) :
    (∃ e, compose base contribs = .error e ∧
      e.message = "duplicate contribution id: " ++ e.duplicateId ∧
      2 ≤ (contribs.map ExtensionContribution.id).count e.duplicateId) ∧
    (∀ s, compose base contribs ≠ .ok s) ∧
    handleConfigSchemaHttpRequest duplicatePluginEnv
        { method := "GET", url := some "/openclaw.schema.json" }
      = .responded 500 jsonContentType
          (some (JSVal.obj [("error", JSVal.str "duplicate contribution id: p1")])) := by
  have hmain : ∃ e, compose base contribs = .error e ∧
      e.message = "duplicate contribution id: " ++ e.duplicateId ∧
      2 ≤ (contribs.map ExtensionContribution.id).count e.duplicateId := by
    cases hf : composeExtensions [] contribs with
    | ok r => exact absurd (composeExtensions_ok_nodup contribs [] r hf).1 h
    | error e =>
      refine ⟨e, by unfold compose; rw [hf], ?_, ?_⟩
      · exact (composeExtensions_error_dup contribs [] e hf).1
      · have := (composeExtensions_error_dup contribs [] e hf).2
        simpa using this
  refine ⟨hmain, ?_, rfl⟩
  intro s hs
  obtain ⟨e, he, -, -⟩ := hmain
  rw [he] at hs
  exact Except.noConfusion hs

/-- C4 witness: composing the same contribution twice fails with the error
naming its id, and the duplicated id is counted twice. -/
theorem compose_duplicate_id_fails_witness :
    ∃ e, compose baseSchema [contribP1, contribP1] = .error e ∧
      e.message = "duplicate contribution id: " ++ e.duplicateId ∧
      2 ≤ ([contribP1, contribP1].map ExtensionContribution.id).count e.duplicateId := by
  exact (compose_duplicate_id_fails baseSchema [contribP1, contribP1] (by decide)).1

/-- C5 counterexample: a GET request whose URL fails to parse escapes the
handler as an exception, because the URL parse on line 25 sits outside the
try block — `new URL(u, "http://localhost")` throws on request targets such
as "//[" (an invalid authority), which the handler does not catch. So an
exception can escape to the HTTP transport unconverted, contradicting the
claim for requests with malformed URLs. -/
theorem url_parse_escapes_cex :
    handleConfigSchemaHttpRequest throwingUrlEnv { method := "GET", url := some "//[" }
        = .threw "Invalid URL" ∧
      (handleConfigSchemaHttpRequest throwingUrlEnv
          { method := "GET", url := some "//[" }).returnValue = none := ⟨rfl, rfl⟩

/-- C5 amended: whenever the URL parses, the handler never lets an
exception escape; and on the GET branch any failure from configuration
load, workspace resolution, plugin discovery or schema composition is
caught and becomes the 500 response with body carrying the message, the
handler returning true. The URL parse itself happens before the try block,
so a request URL that fails to parse escapes as an exception. -/
theorem get_failures_become_500 {Config : Type} (env : SchemaHttpEnv Config)
    (req : HttpRequest) :
    (∀ u, env.parseUrl (req.url.getD "/") = .ok u →
      (handleConfigSchemaHttpRequest env req).returnValue ≠ none) ∧
    (∀ u msg, req.method = "GET" → env.parseUrl (req.url.getD "/") = .ok u →
      u.pathname = SCHEMA_PATH → schemaPipeline env = .error msg →
      handleConfigSchemaHttpRequest env req
          = .responded 500 jsonContentType (some (JSVal.obj [("error", JSVal.str msg)])) ∧
        (handleConfigSchemaHttpRequest env req).returnValue = some true) := by
  constructor
  · intro u hu
    unfold handleConfigSchemaHttpRequest
    by_cases hm : req.method ≠ "GET" ∧ req.method ≠ "HEAD"
    · simp [hm, HandlerOutcome.returnValue]
    · rw [if_neg hm, hu]
      by_cases hp : u.pathname = SCHEMA_PATH
      · by_cases hh : req.method = "HEAD"
        · simp [hp, hh, HandlerOutcome.returnValue]
        · cases hres : schemaPipeline env <;>
            simp [hp, hh, hres, HandlerOutcome.returnValue]
      · simp [hp, HandlerOutcome.returnValue]
  · intro u msg hget hu hpath hpipe
    have hh : handleConfigSchemaHttpRequest env req
        = .responded 500 jsonContentType (some (JSVal.obj [("error", JSVal.str msg)])) := by
      unfold handleConfigSchemaHttpRequest
      rw [hget, hu, hpipe]
      simp [hpath]
    exact ⟨hh, by rw [hh]; rfl⟩

/-- C5 amended witness: with every collaborator failing, a GET on the
schema path is answered 500 with the configuration-load message as the
error body. -/
theorem get_failures_become_500_witness :
    handleConfigSchemaHttpRequest failingCollaboratorsEnv
        { method := "GET", url := some "/openclaw.schema.json" }
      = .responded 500 jsonContentType
          (some (JSVal.obj [("error", JSVal.str "config load failed")])) :=
  ((get_failures_become_500 failingCollaboratorsEnv
      { method := "GET", url := some "/openclaw.schema.json" }).2
    { pathname := "/openclaw.schema.json" } "config load failed" rfl rfl rfl rfl).1

/-- C8: every HEAD request whose URL parses to the schema path is answered
with status 200, the JSON content type, an empty body and a true return,
whatever the collaborator (plugin/channel) state. -/
theorem head_request_200_empty {Config : Type} (env : SchemaHttpEnv Config)
    (req : HttpRequest) (u : UrlParts) (hm : req.method = "HEAD")
    (hu : env.parseUrl (req.url.getD "/") = .ok u) (hp : u.pathname = SCHEMA_PATH) :
    handleConfigSchemaHttpRequest env req = .responded 200 jsonContentType none ∧
      (handleConfigSchemaHttpRequest env req).returnValue = some true := by
  have hh : handleConfigSchemaHttpRequest env req
      = .responded 200 jsonContentType none := by
    unfold handleConfigSchemaHttpRequest
    rw [hm, hu]
    simp [hp]
  exact ⟨hh, by rw [hh]; rfl⟩

/-- C8 witness: HEAD on the schema path answers 200 with an empty body even
in an environment where every collaborator fails. -/
theorem head_request_200_empty_witness :
    handleConfigSchemaHttpRequest failingCollaboratorsEnv
        { method := "HEAD", url := some "/openclaw.schema.json" }
      = .responded 200 jsonContentType none :=
  (head_request_200_empty failingCollaboratorsEnv
    { method := "HEAD", url := some "/openclaw.schema.json" }
    { pathname := "/openclaw.schema.json" } rfl rfl rfl).1

/-- C9: a request with a method other than GET or HEAD, or a parsed
pathname other than the schema path, is not handled — the handler returns
false and writes nothing; matching depends only on the parsed pathname (so
a query string does not prevent handling), and a request with no URL is
parsed as "/" and is not handled. -/
theorem non_matching_requests_fall_through {Config : Type} (env : SchemaHttpEnv Config) :
    (∀ req : HttpRequest, req.method ≠ "GET" → req.method ≠ "HEAD" →
      handleConfigSchemaHttpRequest env req = .notHandled ∧
        (handleConfigSchemaHttpRequest env req).returnValue = some false) ∧
    (∀ (req : HttpRequest) (u : UrlParts), env.parseUrl (req.url.getD "/") = .ok u →
      u.pathname ≠ SCHEMA_PATH →
      handleConfigSchemaHttpRequest env req = .notHandled) ∧
    (∀ (req : HttpRequest) (u : UrlParts), env.parseUrl (req.url.getD "/") = .ok u →
      u.pathname = SCHEMA_PATH → (req.method = "GET" ∨ req.method = "HEAD") →
      handleConfigSchemaHttpRequest env req ≠ .notHandled) ∧
    (∀ method : String, env.parseUrl "/" = .ok { pathname := "/" } →
      handleConfigSchemaHttpRequest env { method := method, url := none }
        = .notHandled) := by
  refine ⟨?_, ?_, ?_, ?_⟩
  · intro req hm1 hm2
    have hh : handleConfigSchemaHttpRequest env req = .notHandled := by
      unfold handleConfigSchemaHttpRequest
      simp [hm1, hm2]
    exact ⟨hh, by rw [hh]; rfl⟩
  · intro req u hu hp
    unfold handleConfigSchemaHttpRequest
    by_cases hm : req.method ≠ "GET" ∧ req.method ≠ "HEAD"
    · simp [hm]
    · rw [if_neg hm, hu]
      simp [hp]
  · intro req u hu hp hm
    cases hm with
    | inl hm =>
      unfold handleConfigSchemaHttpRequest
      rw [hm, hu]
      cases hres : schemaPipeline env <;> simp [hp, hres]
    | inr hm =>
      unfold handleConfigSchemaHttpRequest
      rw [hm, hu]
      simp [hp]
  · intro method hparse
    unfold handleConfigSchemaHttpRequest
    by_cases hm : method ≠ "GET" ∧ method ≠ "HEAD"
    · simp [hm]
    · rw [if_neg hm]
      show (match env.parseUrl "/" with
            | .error e => HandlerOutcome.threw e
            | .ok url =>
              if url.pathname ≠ SCHEMA_PATH then .notHandled
              else if method = "HEAD" then .responded 200 jsonContentType none
              else
                match schemaPipeline env with
                | .ok result => .responded 200 jsonContentType (some result.render)
                | .error msg =>
                  .responded 500 jsonContentType
                    (some (JSVal.obj [("error", JSVal.str msg)]))) = .notHandled
      rw [hparse]
      simp [SCHEMA_PATH]

/-- C9 witness: with a concrete environment, a POST is not handled, a GET
for another path is not handled, a GET for the schema path with a query
string is handled, and a GET with no URL at all is not handled. -/
theorem non_matching_requests_fall_through_witness :
    handleConfigSchemaHttpRequest failingCollaboratorsEnv
        { method := "POST", url := some "/openclaw.schema.json" } = .notHandled ∧
    handleConfigSchemaHttpRequest failingCollaboratorsEnv
        { method := "GET", url := some "/other" } = .notHandled ∧
    handleConfigSchemaHttpRequest failingCollaboratorsEnv
        { method := "GET", url := some "/openclaw.schema.json?v=1" } ≠ .notHandled ∧
    handleConfigSchemaHttpRequest failingCollaboratorsEnv
        { method := "GET", url := none } = .notHandled := by
  refine ⟨?_, ?_, ?_, ?_⟩
  · exact ((non_matching_requests_fall_through failingCollaboratorsEnv).1
      { method := "POST", url := some "/openclaw.schema.json" }
      (by decide) (by decide)).1
  · exact (non_matching_requests_fall_through failingCollaboratorsEnv).2.1
      { method := "GET", url := some "/other" } { pathname := "/other" } rfl (by decide)
  · exact (non_matching_requests_fall_through failingCollaboratorsEnv).2.2.1
      { method := "GET", url := some "/openclaw.schema.json?v=1" }
      { pathname := "/openclaw.schema.json" } rfl rfl (Or.inl rfl)
  · exact (non_matching_requests_fall_through failingCollaboratorsEnv).2.2.2 "GET" rfl

/-- C10: the HEAD branch performs none of the GET branch effects — the
outcome of a HEAD request is identical in any two environments that share a
URL parser, whatever their configuration, workspace, plugin and channel
collaborators do or however they fail; concretely, with every collaborator
failing, HEAD on the schema path still answers 200 with an empty body while
GET on the very same path answers 500. -/
theorem head_branch_reads_no_collaborators :
    (∀ (Config1 Config2 : Type) (env1 : SchemaHttpEnv Config1)
      (env2 : SchemaHttpEnv Config2) (req : HttpRequest),
      req.method = "HEAD" → env1.parseUrl = env2.parseUrl →
      handleConfigSchemaHttpRequest env1 req = handleConfigSchemaHttpRequest env2 req) ∧
    handleConfigSchemaHttpRequest failingCollaboratorsEnv
        { method := "HEAD", url := some "/openclaw.schema.json" }
      = .responded 200 jsonContentType none ∧
    handleConfigSchemaHttpRequest failingCollaboratorsEnv
        { method := "GET", url := some "/openclaw.schema.json" }
      = .responded 500 jsonContentType
          (some (JSVal.obj [("error", JSVal.str "config load failed")])) := by
  refine ⟨?_, rfl, rfl⟩
  intro Config1 Config2 env1 env2 req hm hpe
  unfold handleConfigSchemaHttpRequest
  rw [hm, hpe]
  cases hp : env2.parseUrl (req.url.getD "/") with
  | error e => rfl
  | ok u =>
    by_cases hpath : u.pathname = SCHEMA_PATH
    · simp [hpath]
    · simp [hpath]

/-- C10 witness: two environments sharing the URL parser but with entirely
different collaborators give a HEAD request the identical outcome. -/
theorem head_branch_reads_no_collaborators_witness :
    handleConfigSchemaHttpRequest failingCollaboratorsEnv
        { method := "HEAD", url := some "/openclaw.schema.json" }
      = handleConfigSchemaHttpRequest duplicatePluginEnv
          { method := "HEAD", url := some "/openclaw.schema.json" } :=
  head_branch_reads_no_collaborators.1 Unit Unit failingCollaboratorsEnv
    duplicatePluginEnv { method := "HEAD", url := some "/openclaw.schema.json" } rfl rfl

end OpenClaw
